import Mathlib

/-!
Verification of the event-relay, CSV, formatting and bookmark-loading logic
of the raycast-extensions repository, as a shallow embedding in Lean.

The transcription relay is embedded from
src/extensions/listen/src/utils/transcribe.ts (consumer side, function
startTranscription and its inner checkFile closure) and from the Swift
producer (TranscriptionIPC / SpeechRecognizer / startTranscription /
stopTranscription).  JavaScript numbers carrying timestamps are modelled as
rationals (only order comparisons are performed on them); JavaScript string
truthiness (undefined and "" are falsy) is modelled explicitly.
-/

namespace RaycastExtensions

/-- JavaScript truthiness of an optional string field: an absent field
(undefined) and the empty string are falsy, every other string is truthy. -/
def strTruthy : Option String → Bool
  | none => false
  | some s => s ≠ ""

/-- JavaScript `a || d` for an optional string `a`: when `a` is falsy
(absent or empty) the default `d` is used. -/
def strOr (o : Option String) (d : String) : String :=
  match o with
  | none => d
  | some s => if s = "" then d else s

/-- A status-file event, from the StreamEvent interface of transcribe.ts.
The `type` field is one of "initializing", "recording_started", "partial",
"completed", "error"; it is kept as a string exactly as in the source. -/
structure StreamEvent where
  type : String
  text : Option String := none
  message : Option String := none
  timestamp : ℚ
  sessionId : Option String := none
deriving Repr, DecidableEq

/-- The mutable state of the consumer in startTranscription: the closure
variables lastTimestamp, lastEventType, currentSessionId, isRunning and
recordingStartedCalled of transcribe.ts. -/
structure RelayState where
  lastTimestamp : ℚ
  lastEventType : String
  currentSessionId : Option String
  isRunning : Bool
  recordingStartedCalled : Bool
deriving Repr, DecidableEq

/-- The state right after startTranscription initialises its closure
variables: lastTimestamp = 0, lastEventType = "", no session captured,
running, onRecordingStarted not yet called. -/
def initialRelayState : RelayState :=
  { lastTimestamp := 0
    lastEventType := ""
    currentSessionId := none
    isRunning := true
    recordingStartedCalled := false }

/-- A UI callback invocation performed by the relay (the four optional
callbacks of the TranscriptionCallbacks interface). -/
inductive Callback where
  | onRecordingStarted
  | onPartialResult (text : String)
  | onCompleted (finalText : String)
  | onError (message : String)
deriving Repr, DecidableEq

/-- The observable outcome of one checkFile invocation: the new closure
state, the callbacks fired during the call (in order), and whether the
isNewEvent branch of the event switch was entered. -/
structure StepResult where
  state : RelayState
  callbacks : List Callback
  processed : Bool
deriving Repr, DecidableEq

/-- The isNewEvent condition of checkFile: the event timestamp is strictly
greater than lastTimestamp, or equal with a different event type. -/
def isNewEvent (lastTimestamp : ℚ) (lastEventType : String) (e : StreamEvent) : Bool :=
  decide (e.timestamp > lastTimestamp) ||
    (decide (e.timestamp = lastTimestamp) && decide (e.type ≠ lastEventType))

/-- The mic-ready check at the top of checkFile: when onRecordingStarted has
not been called yet and the mic-ready file exists, mark it called and fire
the callback. -/
def micReadyStep (s : RelayState) (micReady : Bool) : RelayState × List Callback :=
  if !s.recordingStartedCalled && micReady then
    ({ s with recordingStartedCalled := true }, [Callback.onRecordingStarted])
  else (s, [])

/-- The session-capture step of checkFile: capture the session id from any
event that carries a truthy one, when none is held yet. -/
def captureSession (s : RelayState) (e : StreamEvent) : RelayState :=
  if strTruthy e.sessionId && !strTruthy s.currentSessionId then
    { s with currentSessionId := e.sessionId }
  else s

/-- The switch on event.type inside the isNewEvent branch of checkFile,
applied to the state already updated with the event's timestamp and type:
it yields the further-updated state and the callbacks fired. -/
def dispatchEvent (s2 : RelayState) (e : StreamEvent) : RelayState × List Callback :=
  if e.type = "recording_started" then
    if !s2.recordingStartedCalled then
      ({ s2 with recordingStartedCalled := true }, [Callback.onRecordingStarted])
    else (s2, [])
  else if e.type = "partial" then
    let s3 := if !s2.recordingStartedCalled then
      { s2 with recordingStartedCalled := true } else s2
    let cbs := if !s2.recordingStartedCalled then [Callback.onRecordingStarted] else []
    if strTruthy e.text then (s3, cbs ++ [Callback.onPartialResult (e.text.getD "")])
    else (s3, cbs)
  else if e.type = "completed" then
    ({ s2 with isRunning := false }, [Callback.onCompleted (strOr e.text "")])
  else if e.type = "error" then
    ({ s2 with isRunning := false }, [Callback.onError (strOr e.message "Unknown error")])
  else (s2, [])

/-- The event-handling body of checkFile, entered once the status file was
read and parsed: session capture, the out-of-session filter, the isNewEvent
test, and the switch on the event type. -/
def handleEvent (s0 : RelayState) (e : StreamEvent) : StepResult :=
  -- Capture session ID from any event that has it
  let s1 := captureSession s0 e
  -- Ignore events from different sessions (only if we have a session ID set)
  if strTruthy s1.currentSessionId && strTruthy e.sessionId &&
      decide (e.sessionId ≠ s1.currentSessionId) then
    ⟨s1, [], false⟩
  else if isNewEvent s1.lastTimestamp s1.lastEventType e then
    let d := dispatchEvent
      { s1 with lastTimestamp := e.timestamp, lastEventType := e.type } e
    ⟨d.1, d.2, true⟩
  else ⟨s1, [], false⟩

/-- One invocation of the checkFile closure.  `micReady` is whether the
mic-ready file exists; `file` is the parsed content of the status file
(none when the file is absent or JSON parsing throws, which the source
catches and ignores). -/
def checkFile (s : RelayState) (micReady : Bool) (file : Option StreamEvent) : StepResult :=
  if !s.isRunning then ⟨s, [], false⟩
  else
    let m := micReadyStep s micReady
    match file with
    | none => ⟨m.1, m.2, false⟩
    | some e =>
      let r := handleEvent m.1 e
      ⟨r.state, m.2 ++ r.callbacks, r.processed⟩

/-- The condition under which the out-of-session filter of checkFile drops
an event, stated on the pre-state (session capture cannot re-trigger the
filter, since capture only happens when no truthy session id is held). -/
def droppedBySession (s : RelayState) (e : StreamEvent) : Bool :=
  strTruthy s.currentSessionId && strTruthy e.sessionId &&
    decide (e.sessionId ≠ s.currentSessionId)

/-- The external observation consumed by one polling step: whether the
mic-ready file exists and the parsed status-file content, if any. -/
structure PollInput where
  micReady : Bool
  file : Option StreamEvent
deriving Repr, DecidableEq

/-- A sequence of checkFile polling steps, returning the final state and
the concatenation of all callbacks fired, in order. -/
def runRelay (s : RelayState) (inputs : List PollInput) : RelayState × List Callback :=
  match inputs with
  | [] => (s, [])
  | i :: rest =>
    let r := checkFile s i.micReady i.file
    let rest' := runRelay r.state rest
    (rest'.1, r.callbacks ++ rest'.2)

/-- State of the polling loop started by startWatching: the relay closure
state plus whether the 100ms interval has been cleared. -/
structure PollerState where
  relay : RelayState
  intervalCleared : Bool
deriving Repr, DecidableEq

/-- One tick of the 100ms setInterval handler: when isRunning is false the
interval is cleared and nothing else happens; otherwise checkFile runs. -/
def pollTick (p : PollerState) (micReady : Bool) (file : Option StreamEvent) :
    PollerState × List Callback :=
  if !p.relay.isRunning then ({ p with intervalCleared := true }, [])
  else
    let r := checkFile p.relay micReady file
    ({ relay := r.state, intervalCleared := p.intervalCleared }, r.callbacks)

/-- A sequence of interval ticks, collecting all callbacks fired. -/
def runTicks (p : PollerState) (inputs : List PollInput) : PollerState × List Callback :=
  match inputs with
  | [] => (p, [])
  | i :: rest =>
    let r := pollTick p i.micReady i.file
    let rest' := runTicks r.1 rest
    (rest'.1, r.2 ++ rest'.2)

/-- Number of onRecordingStarted invocations in a callback list. -/
def countRecStarted : List Callback → ℕ
  | [] => 0
  | Callback.onRecordingStarted :: rest => countRecStarted rest + 1
  | _ :: rest => countRecStarted rest

/-- Proof measure for the at-most-once property of onRecordingStarted: the
number of onRecordingStarted invocations the relay may still perform. -/
def flagWeight (s : RelayState) : ℕ :=
  if s.recordingStartedCalled then 0 else 1

/-- One externally visible action of the consumer-side stop operation. -/
inductive StopAction where
  | createStopFile
  | setNotRunning
  | clearPollInterval
  | waitMs (ms : ℕ)
  | removeStatusFile
  | removeStopFile
deriving Repr, DecidableEq

/-- The sequence of actions performed by the session stop function of
startTranscription, in source order: await swiftStopTranscription (which
creates the stop sentinel file), set isRunning to false, clearInterval via
stopPolling, await a 200ms setTimeout, then await cleanupStatusFile (which
removes the status file and then the stop file). -/
def sessionStopTrace : List StopAction :=
  [StopAction.createStopFile, StopAction.setNotRunning, StopAction.clearPollInterval,
    StopAction.waitMs 200, StopAction.removeStatusFile, StopAction.removeStopFile]

/-- State of the Swift producer (SpeechRecognizer fields relevant to the
stop path): the stopRequested guard, the isFinished flag, and the current
and accumulated transcription texts. -/
structure ProducerState where
  stopRequested : Bool
  isFinished : Bool
  transcriptionResult : String
  accumulatedTranscription : String
deriving Repr, DecidableEq

/-- The final text computed by stopTranscribing: the accumulated
transcription joined with the current result (Swift uses the current
result alone when nothing was accumulated). -/
def finalText (p : ProducerState) : String :=
  if p.accumulatedTranscription = "" then p.transcriptionResult
  else p.accumulatedTranscription ++ " " ++ p.transcriptionResult

/-- One writeStatus call of the producer (the wall-clock timestamp and the
session id appended by TranscriptionIPC.writeStatus are not modelled). -/
structure StatusWrite where
  type : String
  text : Option String := none
  message : Option String := none
deriving Repr, DecidableEq

/-- SpeechRecognizer.stopTranscribing: guarded by stopRequested it runs at
most once; it marks the recognizer finished and writes a single final
"completed" event carrying the accumulated transcription text. -/
def stopTranscribing (p : ProducerState) : ProducerState × List StatusWrite :=
  if p.stopRequested then (p, [])
  else
    ({ p with stopRequested := true, isFinished := true },
      [{ type := "completed", text := some (finalText p) }])

/-- What the producer's run loop observes on one iteration: whether the
stop sentinel file exists, whether the parent process died, and whether
stdin was closed. -/
structure LoopInput where
  stopFileExists : Bool
  parentDied : Bool
  stdinClosed : Bool
deriving Repr, DecidableEq

/-- Result of one iteration of the producer's run loop: the new recognizer
state, the status writes performed, whether the stop sentinel file was
removed, and whether the loop exited. -/
structure LoopStepResult where
  state : ProducerState
  writes : List StatusWrite
  stopFileRemoved : Bool
  exited : Bool
deriving Repr, DecidableEq

/-- One iteration of the while loop of the Swift startTranscription entry
point: the loop exits when the recognizer is complete; otherwise it checks
the stop sentinel file first (stopTranscribing then clearStopSignal then
break), then parent-process death, then stdin closure (both of which run
stopTranscribing then cleanup - cleanup also removes the stop file). -/
def runLoopStep (p : ProducerState) (inp : LoopInput) : LoopStepResult :=
  if p.isFinished then ⟨p, [], false, true⟩
  else if inp.stopFileExists then
    let r := stopTranscribing p
    ⟨r.1, r.2, true, true⟩
  else if inp.parentDied then
    let r := stopTranscribing p
    ⟨r.1, r.2, true, true⟩
  else if inp.stdinClosed then
    let r := stopTranscribing p
    ⟨r.1, r.2, true, true⟩
  else ⟨p, [], false, false⟩

/-- A literature-clock CSV entry, from the LiteratureClockEntry interface
(the rating union type is kept as a plain string, as the source merely
casts the trimmed field). -/
structure LiteratureClockEntry where
  time : String
  timeString : String
  quote : String
  title : String
  author : String
  rating : String
deriving Repr, DecidableEq

/-- The per-line body of the parsing loop of
getLiteratureQuotesForCurrentTime: a blank line is skipped, a line with
fewer than 6 pipe-separated fields is skipped, and a line whose first
field equals the queried time yields one entry built from the first six
fields with the rating trimmed. -/
def parseCsvLine (currentTime line : String) : Option LiteratureClockEntry :=
  if line.trim = "" then none
  else
    let parts := line.splitOn "|"
    if parts.length < 6 then none
    else
      match parts with
      | time :: timeString :: quote :: title :: author :: rating :: _ =>
        if time = currentTime then
          some ⟨time, timeString, quote, title, author, rating.trim⟩
        else none
      | _ => none

/-- getLiteratureQuotesForCurrentTime, with the current HH:MM time and the
CSV file content abstracted into parameters (the source computes the time
from the wall clock unless a custom time is given, and reads the CSV from
a bundled asset file). -/
def getLiteratureQuotesForCurrentTime (currentTime csvContent : String) :
    List LiteratureClockEntry :=
  (csvContent.splitOn "\n").filterMap (parseCsvLine currentTime)

/-- Restatement of the claim about the CSV parser in its own words: every
line that is blank or splits on the pipe character into fewer than 6
fields contributes nothing, and every other line contributes exactly one
entry when its first field equals the queried time, built from its first
six fields with the rating trimmed. -/
def claimQuotes (currentTime csvContent : String) : List LiteratureClockEntry :=
  (csvContent.splitOn "\n").filterMap (fun line =>
    if line.trim = "" ∨ (line.splitOn "|").length < 6 then none
    else
      match line.splitOn "|" with
      | time :: timeString :: quote :: title :: author :: rating :: _ =>
        if time = currentTime then
          some ⟨time, timeString, quote, title, author, rating.trim⟩
        else none
      | _ => none)

/-- Modelled from the spec: the user-facing error message constants of the
google-chrome extension (src/constants is not present in the corpus; the
spec only requires that failures are surfaced as distinct user-facing
error views, so the two messages are distinct opaque strings). -/
def NO_BOOKMARKS_MESSAGE : String := "No bookmarks found"

/-- Modelled from the spec: the not-installed message constant of the
google-chrome extension (src/constants is not present in the corpus). -/
def NOT_INSTALLED_MESSAGE : String := "Google Chrome is not installed"

/-- A history/bookmark entry as produced by the bookmark extraction of
useBookmarkSearch.tsx (lastVisited is new Date(date_added), modelled as
the raw date_added number). -/
structure HistoryEntry where
  id : String
  url : String
  title : String
  lastVisited : ℚ
deriving Repr, DecidableEq

/-- Modelled from the spec: the BookmarkDirectory interface of the
google-chrome extension (src/interfaces is not present in the corpus);
the shape is reconstructed from the fields useBookmarkSearch.tsx reads:
type, id, name, date_added, an optional url, and children. -/
inductive BookmarkDirectory where
  | node (type : String) (id : String) (name : String) (dateAdded : ℚ)
      (url : Option String) (children : List BookmarkDirectory)

mutual

/-- extractBookmarkFromBookmarkDirectory of useBookmarkSearch.tsx: a
folder node contributes the entries of all its children in order; a url
node with a truthy url contributes one entry; every other node
contributes nothing. -/
def extractBookmarkFromBookmarkDirectory : BookmarkDirectory → List HistoryEntry
  | BookmarkDirectory.node ty id name dateAdded url children =>
    if ty = "folder" then extractBookmarkChildren children
    else if ty = "url" && strTruthy url then
      [⟨id, url.getD "", name, dateAdded⟩]
    else []

/-- The forEach-push over a folder's children. -/
def extractBookmarkChildren : List BookmarkDirectory → List HistoryEntry
  | [] => []
  | d :: ds => extractBookmarkFromBookmarkDirectory d ++ extractBookmarkChildren ds

end

/-- The raw bookmarks file shape: a record of root bookmark folders,
modelled as an association list in key order (Object.keys iterates in
insertion order). -/
structure RawBookmarks where
  roots : List (String × BookmarkDirectory)

/-- extractBookmarks of useBookmarkSearch.tsx: concatenate the entries of
every root folder in key order. -/
def extractBookmarks (raw : RawBookmarks) : List HistoryEntry :=
  extractBookmarkChildren (raw.roots.map Prod.snd)

/-- getBookmarks of useBookmarkSearch.tsx, with the filesystem abstracted:
the argument is none when the profile's bookmarks file does not exist
(existsSync is false), some (Except.error e) when reading or JSON-parsing
the file rejects with message e, and some (Except.ok raw) when it parses.
A missing file rejects with NO_BOOKMARKS_MESSAGE. -/
def getBookmarks (bookmarksFile : Option (Except String RawBookmarks)) :
    Except String (List HistoryEntry) :=
  match bookmarksFile with
  | none => Except.error NO_BOOKMARKS_MESSAGE
  | some (Except.error e) => Except.error e
  | some (Except.ok raw) => Except.ok (extractBookmarks raw)

/-- The three error views the hook can install. -/
inductive ChromeErrorView where
  | notInstalledError
  | noBookmarksError
  | unknownError
deriving Repr, DecidableEq

/-- The React state of useBookmarkSearch: the data list, the isLoading
flag and the optional error view. -/
structure BookmarkSearchState where
  data : List HistoryEntry
  isLoading : Bool
  errorView : Option ChromeErrorView
deriving Repr, DecidableEq

/-- The useState initialisers of useBookmarkSearch: empty data, loading,
no error view. -/
def initialBookmarkSearchState : BookmarkSearchState :=
  { data := [], isLoading := true, errorView := none }

/-- JavaScript String.prototype.includes. -/
def jsIncludes (s sub : String) : Bool := decide (List.IsInfix sub.toList s.toList)

/-- The bookmark filter of the hook's then-branch: the title or the url,
lowercased, contains the lowercased query (an absent or empty query
lowers to the empty string, which every string contains). -/
def bookmarkMatchesQuery (query : Option String) (b : HistoryEntry) : Bool :=
  jsIncludes b.title.toLower (strOr (query.map String.toLower) "") ||
    jsIncludes b.url.toLower (strOr (query.map String.toLower) "")

/-- The state update performed by the useEffect body of useBookmarkSearch
once the getBookmarks promise settles: on success, the filtered bookmarks
become the data and loading ends; on rejection, the message selects the
error view (NotInstalledError, then NoBookmarksError, else UnknownError)
and loading ends, with the data left untouched. -/
def applyBookmarksOutcome (query : Option String) (st : BookmarkSearchState)
    (outcome : Except String (List HistoryEntry)) : BookmarkSearchState :=
  match outcome with
  | Except.ok bookmarks =>
    { st with data := bookmarks.filter (bookmarkMatchesQuery query), isLoading := false }
  | Except.error msg =>
    { st with
      errorView := some (if msg = NOT_INSTALLED_MESSAGE then ChromeErrorView.notInstalledError
        else if msg = NO_BOOKMARKS_MESSAGE then ChromeErrorView.noBookmarksError
        else ChromeErrorView.unknownError)
      isLoading := false }

/-! ## Helper lemmas -/

theorem checkFile_stopped (s : RelayState) (m : Bool) (f : Option StreamEvent)
    (h : s.isRunning = false) : checkFile s m f = ⟨s, [], false⟩ := by
  simp [checkFile, h]

@[simp]
theorem captureSession_lastTimestamp (s : RelayState) (e : StreamEvent) :
    (captureSession s e).lastTimestamp = s.lastTimestamp := by
  unfold captureSession; split_ifs <;> rfl

@[simp]
theorem captureSession_lastEventType (s : RelayState) (e : StreamEvent) :
    (captureSession s e).lastEventType = s.lastEventType := by
  unfold captureSession; split_ifs <;> rfl

@[simp]
theorem captureSession_isRunning (s : RelayState) (e : StreamEvent) :
    (captureSession s e).isRunning = s.isRunning := by
  unfold captureSession; split_ifs <;> rfl

@[simp]
theorem captureSession_recordingStartedCalled (s : RelayState) (e : StreamEvent) :
    (captureSession s e).recordingStartedCalled = s.recordingStartedCalled := by
  unfold captureSession; split_ifs <;> rfl

theorem sessionFilter_eq_droppedBySession (s : RelayState) (e : StreamEvent) :
    (strTruthy (captureSession s e).currentSessionId && strTruthy e.sessionId &&
      decide (e.sessionId ≠ (captureSession s e).currentSessionId)) =
    droppedBySession s e := by
  unfold captureSession droppedBySession strTruthy
  cases he : e.sessionId <;> cases hs : s.currentSessionId <;>
    simp_all <;> split_ifs <;> simp_all

theorem handleEvent_processed_iff (s : RelayState) (e : StreamEvent) :
    (handleEvent s e).processed =
      (!droppedBySession s e && isNewEvent s.lastTimestamp s.lastEventType e) := by
  simp only [handleEvent]
  rw [sessionFilter_eq_droppedBySession]
  rcases h : droppedBySession s e <;>
    simp [h, captureSession_lastTimestamp, captureSession_lastEventType] <;>
    split_ifs <;> simp_all

theorem handleEvent_not_processed (s : RelayState) (e : StreamEvent)
    (h : (handleEvent s e).processed = false) :
    (handleEvent s e).state.lastTimestamp = s.lastTimestamp ∧
    (handleEvent s e).state.lastEventType = s.lastEventType ∧
    (handleEvent s e).callbacks = [] := by
  simp only [handleEvent] at h ⊢
  split_ifs at h ⊢ <;> simp_all

@[simp]
theorem micReadyStep_lastTimestamp (s : RelayState) (m : Bool) :
    (micReadyStep s m).1.lastTimestamp = s.lastTimestamp := by
  unfold micReadyStep; split_ifs <;> rfl

@[simp]
theorem micReadyStep_lastEventType (s : RelayState) (m : Bool) :
    (micReadyStep s m).1.lastEventType = s.lastEventType := by
  unfold micReadyStep; split_ifs <;> rfl

@[simp]
theorem micReadyStep_currentSessionId (s : RelayState) (m : Bool) :
    (micReadyStep s m).1.currentSessionId = s.currentSessionId := by
  unfold micReadyStep; split_ifs <;> rfl

@[simp]
theorem micReadyStep_isRunning (s : RelayState) (m : Bool) :
    (micReadyStep s m).1.isRunning = s.isRunning := by
  unfold micReadyStep; split_ifs <;> rfl

@[simp]
theorem dispatchEvent_lastTimestamp (s2 : RelayState) (e : StreamEvent) :
    (dispatchEvent s2 e).1.lastTimestamp = s2.lastTimestamp := by
  simp only [dispatchEvent]; split_ifs <;> rfl

@[simp]
theorem dispatchEvent_lastEventType (s2 : RelayState) (e : StreamEvent) :
    (dispatchEvent s2 e).1.lastEventType = s2.lastEventType := by
  simp only [dispatchEvent]; split_ifs <;> rfl

@[simp]
theorem dispatchEvent_currentSessionId (s2 : RelayState) (e : StreamEvent) :
    (dispatchEvent s2 e).1.currentSessionId = s2.currentSessionId := by
  simp only [dispatchEvent]; split_ifs <;> rfl

theorem droppedBySession_congr (s t : RelayState) (e : StreamEvent)
    (h : s.currentSessionId = t.currentSessionId) :
    droppedBySession s e = droppedBySession t e := by
  simp [droppedBySession, h]

theorem checkFile_processed_iff (s : RelayState) (m : Bool) (e : StreamEvent) :
    (checkFile s m (some e)).processed =
      (s.isRunning && !droppedBySession s e &&
        isNewEvent s.lastTimestamp s.lastEventType e) := by
  rcases hr : s.isRunning
  · simp [checkFile, hr]
  · simp only [checkFile, hr, Bool.not_true, Bool.false_eq_true, if_false, Bool.true_and]
    rw [handleEvent_processed_iff,
      droppedBySession_congr (micReadyStep s m).1 s e (micReadyStep_currentSessionId s m),
      micReadyStep_lastTimestamp, micReadyStep_lastEventType]

theorem checkFile_not_processed (s : RelayState) (m : Bool) (e : StreamEvent)
    (h : (checkFile s m (some e)).processed = false) :
    (checkFile s m (some e)).state.lastTimestamp = s.lastTimestamp ∧
    (checkFile s m (some e)).state.lastEventType = s.lastEventType ∧
    (checkFile s m (some e)).callbacks = (checkFile s m none).callbacks := by
  rcases hr : s.isRunning
  · simp [checkFile_stopped s m _ hr]
  · simp only [checkFile, hr, Bool.not_true, Bool.false_eq_true, if_false] at h ⊢
    have h2 := handleEvent_not_processed (micReadyStep s m).1 e h
    simp [h2.1, h2.2.1, h2.2.2]

theorem handleEvent_processed_state (s : RelayState) (e : StreamEvent)
    (h : (handleEvent s e).processed = true) :
    (handleEvent s e).state.lastTimestamp = e.timestamp ∧
    (handleEvent s e).state.lastEventType = e.type := by
  simp only [handleEvent] at h ⊢
  split_ifs at h ⊢ <;> simp_all

theorem checkFile_processed_state (s : RelayState) (m : Bool) (e : StreamEvent)
    (h : (checkFile s m (some e)).processed = true) :
    (checkFile s m (some e)).state.lastTimestamp = e.timestamp ∧
    (checkFile s m (some e)).state.lastEventType = e.type := by
  rcases hr : s.isRunning
  · rw [checkFile_stopped s m _ hr] at h; simp at h
  · simp only [checkFile, hr, Bool.not_true, Bool.false_eq_true, if_false] at h ⊢
    exact handleEvent_processed_state _ e h

theorem isNewEvent_le (lt : ℚ) (let1 : String) (e : StreamEvent)
    (h : isNewEvent lt let1 e = true) : lt ≤ e.timestamp := by
  unfold isNewEvent at h
  simp only [Bool.or_eq_true, Bool.and_eq_true, decide_eq_true_eq] at h
  rcases h with h1 | ⟨h1, -⟩
  · exact le_of_lt h1
  · exact le_of_eq h1.symm

theorem isNewEvent_false_of_lt (lt : ℚ) (let1 : String) (e : StreamEvent)
    (h : e.timestamp < lt) : isNewEvent lt let1 e = false := by
  unfold isNewEvent
  simp [not_lt_of_gt h, ne_of_lt h]

theorem checkFile_lastTimestamp_le (s : RelayState) (m : Bool) (f : Option StreamEvent) :
    s.lastTimestamp ≤ (checkFile s m f).state.lastTimestamp := by
  rcases hr : s.isRunning
  · simp [checkFile_stopped s m f hr]
  · cases f with
    | none => simp [checkFile, hr]
    | some e =>
      rcases hp : (checkFile s m (some e)).processed
      · exact le_of_eq (checkFile_not_processed s m e hp).1.symm
      · have hiff := checkFile_processed_iff s m e
        rw [hp] at hiff
        have hnew : isNewEvent s.lastTimestamp s.lastEventType e = true := by
          have h2 := hiff.symm
          simp only [Bool.and_eq_true] at h2
          exact h2.2
        rw [(checkFile_processed_state s m e hp).1]
        exact isNewEvent_le _ _ _ hnew

theorem dispatchEvent_terminal (s2 : RelayState) (e : StreamEvent)
    (h : e.type = "completed" ∨ e.type = "error") :
    (dispatchEvent s2 e).1.isRunning = false := by
  rcases h with h | h <;> simp [dispatchEvent, h]

theorem handleEvent_terminal (s : RelayState) (e : StreamEvent)
    (hp : (handleEvent s e).processed = true)
    (ht : e.type = "completed" ∨ e.type = "error") :
    (handleEvent s e).state.isRunning = false := by
  simp only [handleEvent] at hp ⊢
  split_ifs at hp ⊢ <;> simp_all
  exact dispatchEvent_terminal _ e ht

theorem checkFile_terminal (s : RelayState) (m : Bool) (e : StreamEvent)
    (hp : (checkFile s m (some e)).processed = true)
    (ht : e.type = "completed" ∨ e.type = "error") :
    (checkFile s m (some e)).state.isRunning = false := by
  rcases hr : s.isRunning
  · rw [checkFile_stopped s m _ hr] at hp; simp at hp
  · simp only [checkFile, hr, Bool.not_true, Bool.false_eq_true, if_false] at hp ⊢
    exact handleEvent_terminal _ e hp ht

@[simp]
theorem countRecStarted_append (a b : List Callback) :
    countRecStarted (a ++ b) = countRecStarted a + countRecStarted b := by
  induction a with
  | nil => simp [countRecStarted]
  | cons c rest ih => cases c <;> simp [countRecStarted, ih] <;> omega

theorem micReadyStep_recStarted_bound (s : RelayState) (m : Bool) :
    countRecStarted (micReadyStep s m).2 + flagWeight (micReadyStep s m).1 ≤
      flagWeight s := by
  unfold micReadyStep flagWeight
  split_ifs <;> simp_all [countRecStarted]

theorem dispatchEvent_recStarted_bound (s2 : RelayState) (e : StreamEvent) :
    countRecStarted (dispatchEvent s2 e).2 + flagWeight (dispatchEvent s2 e).1 ≤
      flagWeight s2 := by
  simp only [dispatchEvent, flagWeight]
  split_ifs <;> simp_all [countRecStarted]

theorem handleEvent_recStarted_bound (s : RelayState) (e : StreamEvent) :
    countRecStarted (handleEvent s e).callbacks + flagWeight (handleEvent s e).state ≤
      flagWeight s := by
  have hflag : flagWeight (captureSession s e) = flagWeight s := by
    simp [flagWeight]
  simp only [handleEvent]
  split_ifs with h1 h2
  · simp [countRecStarted, hflag]
  · have hb := dispatchEvent_recStarted_bound
      { captureSession s e with lastTimestamp := e.timestamp, lastEventType := e.type } e
    have hf : flagWeight { captureSession s e with
        lastTimestamp := e.timestamp, lastEventType := e.type } = flagWeight s := by
      simp [flagWeight]
    simp only [] at hb hf ⊢
    omega
  · simp [countRecStarted, hflag]

theorem checkFile_recStarted_bound (s : RelayState) (m : Bool) (f : Option StreamEvent) :
    countRecStarted (checkFile s m f).callbacks + flagWeight (checkFile s m f).state ≤
      flagWeight s := by
  rcases hr : s.isRunning
  · simp [checkFile_stopped s m f hr, countRecStarted]
  · cases f with
    | none =>
      simp only [checkFile, hr, Bool.not_true, Bool.false_eq_true, if_false]
      exact micReadyStep_recStarted_bound s m
    | some e =>
      simp only [checkFile, hr, Bool.not_true, Bool.false_eq_true, if_false,
        countRecStarted_append]
      have h1 := micReadyStep_recStarted_bound s m
      have h2 := handleEvent_recStarted_bound (micReadyStep s m).1 e
      omega

theorem runRelay_fst_append (s : RelayState) (a b : List PollInput) :
    (runRelay s (a ++ b)).1 = (runRelay (runRelay s a).1 b).1 := by
  induction a generalizing s with
  | nil => simp [runRelay]
  | cons i rest ih => simp [runRelay, ih]

theorem runRelay_lastTimestamp_le (s : RelayState) (inputs : List PollInput) :
    s.lastTimestamp ≤ (runRelay s inputs).1.lastTimestamp := by
  induction inputs generalizing s with
  | nil => simp [runRelay]
  | cons i rest ih =>
    simp only [runRelay]
    exact le_trans (checkFile_lastTimestamp_le s i.micReady i.file) (ih _)

theorem runRelay_recStarted_bound (s : RelayState) (inputs : List PollInput) :
    countRecStarted (runRelay s inputs).2 + flagWeight (runRelay s inputs).1 ≤
      flagWeight s := by
  induction inputs generalizing s with
  | nil => simp [runRelay, countRecStarted]
  | cons i rest ih =>
    simp only [runRelay, countRecStarted_append]
    have h1 := checkFile_recStarted_bound s i.micReady i.file
    have h2 := ih (checkFile s i.micReady i.file).state
    omega

theorem captureSession_currentSessionId_of_none (s : RelayState) (e : StreamEvent)
    (h : s.currentSessionId = none) (ht : strTruthy e.sessionId = true) :
    (captureSession s e).currentSessionId = e.sessionId := by
  unfold captureSession
  simp only [ht, h]
  simp [strTruthy]

theorem captureSession_currentSessionId_of_truthy (s : RelayState) (e : StreamEvent)
    (h : strTruthy s.currentSessionId = true) :
    (captureSession s e).currentSessionId = s.currentSessionId := by
  unfold captureSession
  simp [h]

theorem handleEvent_currentSessionId (s : RelayState) (e : StreamEvent) :
    (handleEvent s e).state.currentSessionId = (captureSession s e).currentSessionId := by
  simp only [handleEvent]
  split_ifs <;> simp

theorem pollTick_stopped (p : PollerState) (m : Bool) (f : Option StreamEvent)
    (h : p.relay.isRunning = false) :
    pollTick p m f = ({ p with intervalCleared := true }, []) := by
  simp [pollTick, h]

theorem runTicks_stopped_callbacks (p : PollerState) (inputs : List PollInput)
    (h : p.relay.isRunning = false) : (runTicks p inputs).2 = [] := by
  induction inputs generalizing p with
  | nil => simp [runTicks]
  | cons i rest ih =>
    simp only [runTicks, pollTick_stopped p i.micReady i.file h]
    exact ih _ (by simpa using h)

/-! ## Claims -/

/-- C1: a polled status-file event whose timestamp equals the last processed
timestamp and whose type equals the last processed event type is ignored:
lastTimestamp and lastEventType are unchanged, no event callback is invoked
(the poll fires exactly what an event-less poll would fire), and the event
switch is not entered.  Moreover an event that passes the running and
session checks is processed exactly when its timestamp is strictly greater
than lastTimestamp, or equal with a different type. -/
theorem relay_duplicate_event_ignored :
    (∀ (s : RelayState) (m : Bool) (e : StreamEvent),
      e.timestamp = s.lastTimestamp → e.type = s.lastEventType →
        (checkFile s m (some e)).state.lastTimestamp = s.lastTimestamp ∧
        (checkFile s m (some e)).state.lastEventType = s.lastEventType ∧
        (checkFile s m (some e)).callbacks = (checkFile s m none).callbacks ∧
        (checkFile s m (some e)).processed = false) ∧
    (∀ (s : RelayState) (m : Bool) (e : StreamEvent),
      s.isRunning = true → droppedBySession s e = false →
        ((checkFile s m (some e)).processed = true ↔
          (s.lastTimestamp < e.timestamp ∨
            (e.timestamp = s.lastTimestamp ∧ e.type ≠ s.lastEventType)))) := by
  constructor
  · intro s m e h1 h2
    have hnew : isNewEvent s.lastTimestamp s.lastEventType e = false := by
      unfold isNewEvent
      simp [h1, h2]
    have hp : (checkFile s m (some e)).processed = false := by
      rw [checkFile_processed_iff, hnew]
      simp
    have h3 := checkFile_not_processed s m e hp
    exact ⟨h3.1, h3.2.1, h3.2.2, hp⟩
  · intro s m e hr hd
    rw [checkFile_processed_iff, hr, hd]
    unfold isNewEvent
    simp [and_comm]

/-- Witness for C1 at concrete inputs: an event repeating the initial
timestamp 0 and type "" adds no callback beyond the event-less poll, and a
fresh partial event with timestamp 1 is processed. -/
theorem relay_duplicate_event_ignored_witness :
    (checkFile initialRelayState true (some { type := "", timestamp := 0 })).callbacks =
      (checkFile initialRelayState true none).callbacks ∧
    (checkFile initialRelayState false
      (some { type := "partial", timestamp := 1, text := some "hi" })).processed = true :=
  ⟨(relay_duplicate_event_ignored.1 initialRelayState true _ rfl rfl).2.2.1,
    (relay_duplicate_event_ignored.2 initialRelayState false _ rfl rfl).mpr
      (Or.inl (by norm_num [initialRelayState]))⟩

/-- C2: the consumer captures the session id from the first polled event
carrying a truthy one; thereafter an event carrying a different truthy
session id is dropped: the event switch is not entered, lastTimestamp,
lastEventType and currentSessionId are unchanged, and no callback beyond
the event-less poll fires.  An event carrying no session id is never
dropped by this check: it is processed whenever the relay is running and
the isNewEvent test passes. -/
theorem relay_session_filter :
    (∀ (s : RelayState) (m : Bool) (e : StreamEvent),
      s.isRunning = true → s.currentSessionId = none → strTruthy e.sessionId = true →
        (checkFile s m (some e)).state.currentSessionId = e.sessionId) ∧
    (∀ (s : RelayState) (m : Bool) (e : StreamEvent),
      droppedBySession s e = true →
        (checkFile s m (some e)).processed = false ∧
        (checkFile s m (some e)).state.lastTimestamp = s.lastTimestamp ∧
        (checkFile s m (some e)).state.lastEventType = s.lastEventType ∧
        (checkFile s m (some e)).state.currentSessionId = s.currentSessionId ∧
        (checkFile s m (some e)).callbacks = (checkFile s m none).callbacks) ∧
    (∀ (s : RelayState) (m : Bool) (e : StreamEvent),
      e.sessionId = none →
        (checkFile s m (some e)).processed =
          (s.isRunning && isNewEvent s.lastTimestamp s.lastEventType e)) := by
  refine ⟨?_, ?_, ?_⟩
  · intro s m e hr hn ht
    simp only [checkFile, hr, Bool.not_true, Bool.false_eq_true, if_false]
    rw [handleEvent_currentSessionId]
    exact captureSession_currentSessionId_of_none _ e (by simp [hn]) ht
  · intro s m e hd
    have hp : (checkFile s m (some e)).processed = false := by
      rw [checkFile_processed_iff, hd]
      simp
    have h3 := checkFile_not_processed s m e hp
    refine ⟨hp, h3.1, h3.2.1, ?_, h3.2.2⟩
    have htr : strTruthy s.currentSessionId = true := by
      unfold droppedBySession at hd
      simp only [Bool.and_eq_true] at hd
      exact hd.1.1
    rcases hr : s.isRunning
    · simp [checkFile_stopped s m _ hr]
    · simp only [checkFile, hr, Bool.not_true, Bool.false_eq_true, if_false]
      rw [handleEvent_currentSessionId]
      rw [captureSession_currentSessionId_of_truthy _ e (by simpa using htr)]
      simp
  · intro s m e hn
    rw [checkFile_processed_iff]
    have : droppedBySession s e = false := by
      unfold droppedBySession strTruthy
      simp [hn]
    rw [this]
    simp

/-- Witness for C2 at concrete inputs: the session id of the first event
carrying one is captured; an event from another session is dropped with no
state change; an event with no session id is processed when new. -/
theorem relay_session_filter_witness :
    (checkFile initialRelayState false
      (some { type := "partial", timestamp := 1, text := some "a", sessionId := some "S1" })).state.currentSessionId = some "S1" ∧
    (checkFile { initialRelayState with currentSessionId := some "S1" } false
      (some { type := "partial", timestamp := 2, text := some "b", sessionId := some "S2" })).state.lastTimestamp = 0 ∧
    (checkFile initialRelayState false
      (some { type := "partial", timestamp := 1, text := some "c" })).processed =
      (initialRelayState.isRunning &&
        isNewEvent initialRelayState.lastTimestamp initialRelayState.lastEventType
          { type := "partial", timestamp := 1, text := some "c" }) :=
  ⟨relay_session_filter.1 initialRelayState false _ rfl rfl rfl,
    (relay_session_filter.2.1 _ false _ (by decide)).2.1,
    relay_session_filter.2.2 initialRelayState false _ rfl⟩

/-- C3: across every sequence of checkFile polling steps the consumer's
lastTimestamp is non-decreasing, and an event whose timestamp is strictly
below the current lastTimestamp is never delivered: the event switch is
not entered and no callback beyond the event-less poll fires. -/
theorem relay_timestamp_monotone :
    (∀ (s : RelayState) (pre post : List PollInput),
      (runRelay s pre).1.lastTimestamp ≤ (runRelay s (pre ++ post)).1.lastTimestamp) ∧
    (∀ (s : RelayState) (pre : List PollInput) (m : Bool) (e : StreamEvent),
      e.timestamp < (runRelay s pre).1.lastTimestamp →
        (checkFile (runRelay s pre).1 m (some e)).processed = false ∧
        (checkFile (runRelay s pre).1 m (some e)).callbacks =
          (checkFile (runRelay s pre).1 m none).callbacks) := by
  constructor
  · intro s pre post
    rw [runRelay_fst_append]
    exact runRelay_lastTimestamp_le _ post
  · intro s pre m e hlt
    have hp : (checkFile (runRelay s pre).1 m (some e)).processed = false := by
      rw [checkFile_processed_iff, isNewEvent_false_of_lt _ _ _ hlt]
      simp
    exact ⟨hp, (checkFile_not_processed _ m e hp).2.2⟩

/-- Witness for C3 at concrete inputs: after a poll that processed an event
with timestamp 5, a stale event with timestamp 3 is not processed. -/
theorem relay_timestamp_monotone_witness :
    (checkFile (runRelay initialRelayState
        [⟨false, some { type := "partial", timestamp := 5, text := some "x" }⟩]).1
      false (some { type := "partial", timestamp := 3, text := some "y" })).processed =
      false :=
  (relay_timestamp_monotone.2 initialRelayState
    [⟨false, some { type := "partial", timestamp := 5, text := some "x" }⟩]
    false { type := "partial", timestamp := 3, text := some "y" } (by decide)).1

/-- C4: the session stop operation performs, in order: create the stop
sentinel file (swiftStopTranscription), mark polling stopped (isRunning
false and clearInterval), wait the fixed 200ms delay, and only then remove
the status file and the stop file; and once isRunning is false a polling
step fires no callback. -/
theorem session_stop_ordering :
    sessionStopTrace.indexOf StopAction.createStopFile <
      sessionStopTrace.indexOf (StopAction.waitMs 200) ∧
    sessionStopTrace.indexOf StopAction.createStopFile <
      sessionStopTrace.indexOf StopAction.setNotRunning ∧
    sessionStopTrace.indexOf StopAction.setNotRunning <
      sessionStopTrace.indexOf (StopAction.waitMs 200) ∧
    sessionStopTrace.indexOf StopAction.clearPollInterval <
      sessionStopTrace.indexOf (StopAction.waitMs 200) ∧
    sessionStopTrace.indexOf (StopAction.waitMs 200) <
      sessionStopTrace.indexOf StopAction.removeStatusFile ∧
    sessionStopTrace.indexOf (StopAction.waitMs 200) <
      sessionStopTrace.indexOf StopAction.removeStopFile ∧
    (∀ (s : RelayState) (m : Bool) (f : Option StreamEvent),
      s.isRunning = false → (checkFile s m f).callbacks = []) := by
  refine ⟨by decide, by decide, by decide, by decide, by decide, by decide, ?_⟩
  intro s m f h
  rw [checkFile_stopped s m f h]

/-- Witness for C4: a poll on a stopped relay fires no callback. -/
theorem session_stop_ordering_witness :
    (checkFile { initialRelayState with isRunning := false } true
      (some { type := "partial", timestamp := 1, text := some "x" })).callbacks = [] :=
  session_stop_ordering.2.2.2.2.2.2 _ true _ rfl

/-- C5: an iteration of the producer's run loop that observes the stop
sentinel file (with the recognizer not yet complete) stops transcribing,
clears the stop signal and exits the loop; stopTranscribing is guarded by
stopRequested, so it acts at most once and writes exactly one final
"completed" event carrying the accumulated transcription text. -/
theorem producer_stop_polling :
    (∀ (p : ProducerState) (inp : LoopInput),
      p.isFinished = false → inp.stopFileExists = true →
        runLoopStep p inp =
          ⟨(stopTranscribing p).1, (stopTranscribing p).2, true, true⟩) ∧
    (∀ p : ProducerState, p.stopRequested = false →
      (stopTranscribing p).2 = [{ type := "completed", text := some (finalText p) }] ∧
      (stopTranscribing p).1.stopRequested = true ∧
      (stopTranscribing p).1.isFinished = true) ∧
    (∀ p : ProducerState, p.stopRequested = true → stopTranscribing p = (p, [])) := by
  refine ⟨?_, ?_, ?_⟩
  · intro p inp h1 h2
    simp [runLoopStep, h1, h2]
  · intro p h
    simp [stopTranscribing, h]
  · intro p h
    simp [stopTranscribing, h]

/-- Witness for C5 at a concrete producer state: the loop iteration seeing
the stop file stops, clears and exits, writing the single completed event. -/
theorem producer_stop_polling_witness :
    runLoopStep ⟨false, false, "hello", ""⟩ ⟨true, false, false⟩ =
      ⟨(stopTranscribing ⟨false, false, "hello", ""⟩).1,
        (stopTranscribing ⟨false, false, "hello", ""⟩).2, true, true⟩ ∧
    (stopTranscribing ⟨false, false, "hello", ""⟩).2 =
      [{ type := "completed", text := some (finalText ⟨false, false, "hello", ""⟩) }] :=
  ⟨producer_stop_polling.1 _ _ rfl rfl, (producer_stop_polling.2.1 _ rfl).1⟩

/-- C6: processing a "completed" or "error" event turns isRunning off; a
tick on a stopped relay clears the poll interval and does nothing else,
and every subsequent sequence of ticks fires no callback at all. -/
theorem relay_terminal_events :
    (∀ (s : RelayState) (m : Bool) (e : StreamEvent),
      (checkFile s m (some e)).processed = true →
      (e.type = "completed" ∨ e.type = "error") →
        (checkFile s m (some e)).state.isRunning = false) ∧
    (∀ (p : PollerState) (m : Bool) (f : Option StreamEvent),
      p.relay.isRunning = false →
        pollTick p m f = ({ p with intervalCleared := true }, [])) ∧
    (∀ (p : PollerState) (inputs : List PollInput),
      p.relay.isRunning = false → (runTicks p inputs).2 = []) :=
  ⟨checkFile_terminal, pollTick_stopped, runTicks_stopped_callbacks⟩

/-- Witness for C6: processing a concrete completed event stops the relay,
and ticks on a stopped poller fire nothing. -/
theorem relay_terminal_events_witness :
    (checkFile initialRelayState false
      (some { type := "completed", timestamp := 1, text := some "done" })).state.isRunning =
      false ∧
    (runTicks ⟨{ initialRelayState with isRunning := false }, false⟩
      [⟨true, some { type := "partial", timestamp := 2, text := some "z" }⟩]).2 = [] :=
  ⟨relay_terminal_events.1 initialRelayState false _ (by decide) (Or.inl rfl),
    relay_terminal_events.2.2 _ _ rfl⟩

/-- C7: over any session starting from the initial relay state, across any
sequence of polling steps with arbitrary mic-ready observations and
status-file contents, the onRecordingStarted callback is invoked at most
once. -/
theorem recordingStarted_at_most_once (inputs : List PollInput) :
    countRecStarted (runRelay initialRelayState inputs).2 ≤ 1 := by
  have h := runRelay_recStarted_bound initialRelayState inputs
  have h0 : flagWeight initialRelayState = 1 := rfl
  omega

/-- C8: the literature-clock CSV parse equals its specification: every
blank line and every line with fewer than 6 pipe-separated fields is
skipped, and each remaining line whose first field equals the queried time
contributes exactly one entry built from its first six fields with the
rating trimmed. -/
theorem literature_csv_line_skipping (currentTime csvContent : String) :
    getLiteratureQuotesForCurrentTime currentTime csvContent =
      claimQuotes currentTime csvContent := by
  unfold getLiteratureQuotesForCurrentTime claimQuotes
  congr 1
  funext line
  unfold parseCsvLine
  by_cases h1 : line.trim = ""
  · simp [h1]
  · by_cases h2 : (line.splitOn "|").length < 6
    · simp [h1, h2]
    · simp [h1, h2]

/-- C10: when the profile's bookmarks file does not exist, getBookmarks
rejects with the no-bookmarks message; the hook's catch installs the
NoBookmarksError view and ends loading while leaving the (initially empty)
data untouched; a not-installed rejection installs NotInstalledError and
any other rejection installs UnknownError. -/
theorem bookmark_error_handling :
    getBookmarks none = Except.error NO_BOOKMARKS_MESSAGE ∧
    (∀ (q : Option String) (st : BookmarkSearchState),
      applyBookmarksOutcome q st (getBookmarks none) =
        { st with errorView := some ChromeErrorView.noBookmarksError, isLoading := false }) ∧
    initialBookmarkSearchState.data = [] ∧
    (∀ (q : Option String) (st : BookmarkSearchState) (msg : String),
      (applyBookmarksOutcome q st (Except.error msg)).data = st.data ∧
      (applyBookmarksOutcome q st (Except.error msg)).isLoading = false) ∧
    (∀ (q : Option String) (st : BookmarkSearchState),
      (applyBookmarksOutcome q st (Except.error NOT_INSTALLED_MESSAGE)).errorView =
        some ChromeErrorView.notInstalledError) ∧
    (∀ (q : Option String) (st : BookmarkSearchState) (msg : String),
      msg ≠ NOT_INSTALLED_MESSAGE → msg ≠ NO_BOOKMARKS_MESSAGE →
        (applyBookmarksOutcome q st (Except.error msg)).errorView =
          some ChromeErrorView.unknownError) := by
  refine ⟨rfl, ?_, rfl, ?_, ?_, ?_⟩
  · intro q st
    have hne : NO_BOOKMARKS_MESSAGE ≠ NOT_INSTALLED_MESSAGE := by decide
    simp [getBookmarks, applyBookmarksOutcome, hne]
  · intro q st msg
    simp [applyBookmarksOutcome]
  · intro q st
    simp [applyBookmarksOutcome]
  · intro q st msg h1 h2
    simp [applyBookmarksOutcome, h1, h2]

/-- Witness for C10: a rejection whose message matches neither known
constant installs the UnknownError view. -/
theorem bookmark_error_handling_witness :
    (applyBookmarksOutcome none initialBookmarkSearchState
      (Except.error "boom")).errorView = some ChromeErrorView.unknownError :=
  bookmark_error_handling.2.2.2.2.2 none initialBookmarkSearchState "boom"
    (by decide) (by decide)

end RaycastExtensions
